import Mathlib

/-!
Shallow embedding of the pythrust backend core (output extractor,
design-rule validator, correction orchestrator) over `List Char`.
Python strings are modelled as lists of characters; each regular
expression of the source is modelled by an explicit scanner that follows
the leftmost-match / greedy semantics of Python `re` for the concrete
patterns involved.  Sources: `backend/generator.py`, `backend/validator.py`,
`backend/corrector.py`.
-/

/-- ASCII whitespace recognised by Python `str.strip` and the regex class
of whitespace characters (ASCII fragment of the Unicode set). -/
def isPySpace (c : Char) : Bool :=
  c == ' ' || c == '\t' || c == '\n' || c == '\r' || c == '\x0b' || c == '\x0c'

/-- Python `s.lstrip()`. -/
def lstripPy (s : List Char) : List Char := s.dropWhile isPySpace

/-- Python `s.rstrip()`. -/
def rstripPy (s : List Char) : List Char := (s.reverse.dropWhile isPySpace).reverse

/-- Python `s.strip()`. -/
def stripPy (s : List Char) : List Char := rstripPy (lstripPy s)

/-- Boolean test that `p` is a prefix of `t` (`t.startswith(p)`). -/
def prefB : List Char → List Char → Bool
  | [], _ => true
  | _ :: _, [] => false
  | p :: ps, t :: ts => p == t && prefB ps ts

/-- Python substring containment `p in t`. -/
def containsB (t p : List Char) : Bool :=
  match t with
  | [] => p.isEmpty
  | _ :: ts => prefB p t || containsB ts p

/-- Case-insensitive prefix test; the pattern is given in lower case. -/
def prefCI : List Char → List Char → Bool
  | [], _ => true
  | _ :: _, [] => false
  | p :: ps, t :: ts => p == t.toLower && prefCI ps ts

/-- Python `s.lower()` (ASCII fragment). -/
def lowerStr (s : List Char) : List Char := s.map Char.toLower

/-- Python `s.split('\n')`. -/
def splitNl : List Char → List (List Char)
  | [] => [[]]
  | c :: ts =>
    if c == '\n' then [] :: splitNl ts
    else
      match splitNl ts with
      | [] => [[c]]
      | l :: ls => (c :: l) :: ls

/-- The `_clean_output` helper of `generator.py`: drop every line whose
stripped form starts with a code fence, rejoin, and strip. -/
def cleanOutput (s : List Char) : List Char :=
  stripPy (List.intercalate ['\n']
    ((splitNl s).filter (fun l => !(prefB "\x60\x60\x60".data (stripPy l)))))

/-- Hexadecimal digit as in the character class `[0-9a-fA-F]`. -/
def isHexDig (c : Char) : Bool :=
  c.isDigit || ('a' ≤ c && c ≤ 'f') || ('A' ≤ c && c ≤ 'F')

/-- Scanner for `re.findall` of the hex-colour pattern of `validator.py`
(a hash mark followed by three to six hex digits, greedy, non-overlapping,
the scan resuming after each match). Fuel bounds the number of steps. -/
def findColorsGo : Nat → List Char → List (List Char)
  | 0, _ => []
  | _, [] => []
  | f + 1, c :: ts =>
    if c == '#' then
      let run := ts.takeWhile isHexDig
      if 3 ≤ run.length then
        ('#' :: run.take 6) :: findColorsGo f (ts.drop (run.take 6).length)
      else findColorsGo f ts
    else findColorsGo f ts

/-- All hex-colour literals found in a text. -/
def findColors (s : List Char) : List (List Char) := findColorsGo s.length s

/-- Python `repr` of a string (fragment: quote choice for strings without
control characters, as produced for the rule-set tokens). -/
def pyReprStr (s : List Char) : List Char :=
  if s.contains '\x27' && !(s.contains '"') then '"' :: (s ++ ['"'])
  else '\x27' :: (s ++ ['\x27'])

/-- Python `str` of a list of strings, as interpolated in f-strings. -/
def pyReprList (l : List (List Char)) : List Char :=
  '[' :: (List.intercalate [',', ' '] (l.map pyReprStr) ++ [']'])

/-- Message of an `UNAUTHORIZED_COLOR` finding. -/
def colorMsg (c : List Char) (allowed : List (List Char)) : List Char :=
  "UNAUTHORIZED_COLOR: \x27".data ++ c
    ++ "\x27 is not in the design system. Allowed: ".data ++ pyReprList allowed

/-- Message of a `MISSING_FONT` finding. -/
def fontMsg : List Char :=
  "MISSING_FONT: Component must use \x27Inter\x27 font family".data

/-- Message of an `UNAUTHORIZED_RADIUS` finding. -/
def radiusMsg (ar : List (List Char)) : List Char :=
  "UNAUTHORIZED_RADIUS: Radius used is not in the design system. Allowed: ".data
    ++ pyReprList ar

/-- Message of a `SYNTAX_ERROR` finding for one bracket pair. -/
def syntaxMsg (o c : Char) : List Char :=
  "SYNTAX_ERROR: Unbalanced \x27".data ++ [o] ++ "\x27 and \x27".data ++ [c] ++ ['\x27']

/-- Message of a `MISSING_DECORATOR` finding. -/
def decoratorMsg : List Char :=
  "MISSING_DECORATOR: @Component decorator is required".data

/-- Message of a `MISSING_CLASS` finding. -/
def classMsg : List Char :=
  "MISSING_CLASS: Component must export a class".data

/-- Generic `re.findall`-style scanner: at each position try the capture
function; on success record the capture and resume after the match, else
advance one character. Every capture function used consumes at least one
character, so fuel equal to the length of the text is exact. -/
def scanAll (cap : List Char → Option (List Char × List Char)) :
    Nat → List Char → List (List Char)
  | 0, _ => []
  | _, [] => []
  | f + 1, c :: ts =>
    match cap (c :: ts) with
    | some (x, rest) => x :: scanAll cap f rest
    | none => scanAll cap f ts

/-- Capture of the value alternative `[0-9]+px|50%|9999px` (ignore-case on
the letters; the third alternative is subsumed by the first). Returns the
matched text and the rest. -/
def bdrValueCapture (r : List Char) : Option (List Char × List Char) :=
  let ds := r.takeWhile Char.isDigit
  let afterDigits := r.drop ds.length
  let fifty : Option (List Char × List Char) :=
    match r with
    | '5' :: '0' :: '%' :: rest => some ("50%".data, rest)
    | _ => none
  if ds.length == 0 then fifty
  else
    match afterDigits with
    | p :: x :: rest =>
      if p.toLower == 'p' && x.toLower == 'x' then some (ds ++ [p, x], rest)
      else fifty
    | _ => fifty

/-- Capture for the explicit declaration pattern of `validator.py`:
`border-radius`, optional whitespace, a colon, optional whitespace, then a
pixel/percent value (all case-insensitive). -/
def borderRadiusCapture (t : List Char) : Option (List Char × List Char) :=
  if prefCI "border-radius".data t then
    let r1 := t.drop 13
    let r2 := r1.drop (r1.takeWhile isPySpace).length
    match r2 with
    | ':' :: r3 => bdrValueCapture (r3.drop ((r3.takeWhile isPySpace).length))
    | _ => none
  else none

/-- The fixed symbolic-token-to-length mapping of `validator.py`, in the
insertion order of the Python dict. -/
def tailwindMap : List (List Char × List Char) :=
  [("rounded-sm".data, "4px".data), ("rounded".data, "8px".data),
   ("rounded-md".data, "12px".data), ("rounded-lg".data, "16px".data),
   ("rounded-full".data, "9999px".data), ("rounded-pill".data, "9999px".data)]

/-- Symbolic-token detection: for each mapping entry whose token occurs as
a substring of the text (case-sensitively), its pixel value is recorded. -/
def tailwindDetect (full : List Char) : List (List Char) :=
  (tailwindMap.filter (fun p => containsB full p.1)).map (fun p => p.2)

/-- Capture for the bracketed arbitrary-value pattern: `rounded-[`,
optional whitespace, digits, `px`, optional whitespace, `]`. -/
def bracketCapture (t : List Char) : Option (List Char × List Char) :=
  if prefB "rounded-[".data t then
    let r1 := t.drop 9
    let r2 := r1.drop (r1.takeWhile isPySpace).length
    let ds := r2.takeWhile Char.isDigit
    if ds.length == 0 then none
    else
      match r2.drop ds.length with
      | 'p' :: 'x' :: r3 =>
        match r3.drop ((r3.takeWhile isPySpace).length) with
        | ']' :: rest => some (ds ++ "px".data, rest)
        | _ => none
      | _ => none
  else none

/-- Capture for the dash-separated pixel-token pattern: `rounded-`,
digits, `px`. -/
def pxClassCapture (t : List Char) : Option (List Char × List Char) :=
  if prefB "rounded-".data t then
    let r1 := t.drop 8
    let ds := r1.takeWhile Char.isDigit
    if ds.length == 0 then none
    else
      match r1.drop ds.length with
      | 'p' :: 'x' :: rest => some (ds ++ "px".data, rest)
      | _ => none
  else none

/-- All detected corner-radius values, in the detection order of
`validator.py`: explicit declarations, symbolic tokens, bracketed
arbitrary values, dash-separated pixel tokens. -/
def detectedRadii (full : List Char) : List (List Char) :=
  scanAll borderRadiusCapture full.length full
    ++ tailwindDetect full
    ++ scanAll bracketCapture full.length full
    ++ scanAll pxClassCapture full.length full

/-- The structured artifact recovered by the output extractor. -/
structure Artifact where
  ts : List Char
  html : List Char
  raw : List Char
deriving DecidableEq

/-- Result of the design-rule validator. -/
structure ValidationResult where
  valid : Bool
  errors : List (List Char)
  error_count : Nat
deriving DecidableEq

/-- Concatenation validated by `validate_component`. -/
def fullCodeOf (a : Artifact) : List Char := a.ts ++ '\n' :: a.html

/-- The design-rule validator of `validator.py`, parameterised by the
rule-set lists read from the design-system configuration. The required
font token is the literal `Inter` hard-coded in the source. -/
def validate_component (allowed_colors allowed_radii : List (List Char))
    (code : Artifact) : ValidationResult :=
  let full_code := fullCodeOf code
  let found_colors := findColors full_code
  let allowed := allowed_colors.map lowerStr
  let errors : List (List Char) :=
    (found_colors.filter (fun c => decide (lowerStr c ∉ allowed))).map
      (fun c => colorMsg c allowed)
  let errors := errors ++
    (if containsB full_code "Inter".data then [] else [fontMsg])
  let detected := detectedRadii full_code
  let errors := errors ++
    (if detected.isEmpty then []
     else if detected.any (fun r => decide (r ∈ allowed_radii)) then []
     else [radiusMsg allowed_radii])
  let ts := code.ts
  let errors := errors ++
    (if ts.count '\x7b' == ts.count '\x7d' then [] else [syntaxMsg '\x7b' '\x7d'])
  let errors := errors ++
    (if ts.count '(' == ts.count ')' then [] else [syntaxMsg '(' ')'])
  let errors := errors ++
    (if ts.count '[' == ts.count ']' then [] else [syntaxMsg '[' ']'])
  let errors := errors ++
    (if containsB ts "@Component".data then [] else [decoratorMsg])
  let errors := errors ++
    (if containsB ts "export class".data then [] else [classMsg])
  { valid := errors.isEmpty, errors := errors, error_count := errors.length }

/-- Specification-side list of colour-check findings (check a). -/
def colorErrors (allowed_colors : List (List Char)) (full : List Char) :
    List (List Char) :=
  let allowed := allowed_colors.map lowerStr
  ((findColors full).filter (fun c => decide (lowerStr c ∉ allowed))).map
    (fun c => colorMsg c allowed)

/-- Specification-side list of font-check findings (check b). -/
def fontErrors (full : List Char) : List (List Char) :=
  if containsB full "Inter".data then [] else [fontMsg]

/-- Specification-side list of corner-radius findings (check c). -/
def radiusErrors (allowed_radii : List (List Char)) (full : List Char) :
    List (List Char) :=
  if (detectedRadii full).isEmpty then []
  else if (detectedRadii full).any (fun r => decide (r ∈ allowed_radii)) then []
  else [radiusMsg allowed_radii]

/-- Specification-side list of bracket-balance findings (check d). -/
def syntaxErrors (ts : List Char) : List (List Char) :=
  (if ts.count '\x7b' == ts.count '\x7d' then [] else [syntaxMsg '\x7b' '\x7d'])
    ++ (if ts.count '(' == ts.count ')' then [] else [syntaxMsg '(' ')'])
    ++ (if ts.count '[' == ts.count ']' then [] else [syntaxMsg '[' ']'])

/-- Specification-side list of decorator findings (check e, first half). -/
def decoratorErrors (ts : List Char) : List (List Char) :=
  if containsB ts "@Component".data then [] else [decoratorMsg]

/-- Specification-side list of class-marker findings (check e, second half). -/
def classErrors (ts : List Char) : List (List Char) :=
  if containsB ts "export class".data then [] else [classMsg]

/-- Length of the rest of the current line, as consumed by a `.*` tail
(the dot does not match a newline). -/
def restOfLine (r : List Char) : Nat := (r.takeWhile (fun c => !(c == '\n'))).length

/-- Length of one alternative of the noise-line pattern of `generator.py`
(an `Attempt .. failed ..` line, an `Auto-correcting...` line, or an
`INFO:` line), at the given position, or `none`. Greedy runs need no
backtracking here because each literal piece starts with a character the
preceding character class cannot match. -/
def noiseAltLen (r : List Char) : Option Nat :=
  if prefB "Attempt".data r then
    let r1 := r.drop 7
    let w1 := (r1.takeWhile isPySpace).length
    if w1 == 0 then none
    else
      let r2 := r1.drop w1
      let d := (r2.takeWhile Char.isDigit).length
      if d == 0 then none
      else
        let r3 := r2.drop d
        let w2 := (r3.takeWhile isPySpace).length
        if w2 == 0 then none
        else
          let r4 := r3.drop w2
          if prefB "failed".data r4 then
            some (7 + w1 + d + w2 + 6 + restOfLine (r4.drop 6))
          else none
  else if prefB "Auto-correcting".data r then
    some (15 + ((r.drop 15).takeWhile (fun c => c == '.')).length)
  else if prefB "INFO:".data r then
    some (5 + restOfLine (r.drop 5))
  else none

/-- Length consumed by the trailing `\s*$` of the noise pattern in
multiline mode: the greedy run backtracks to the last position that is
the end of the string or directly before a newline. -/
def noiseTailLen (r : List Char) : Option Nat :=
  let run := r.takeWhile isPySpace
  if run.length == r.length then some run.length
  else
    match run.reverse.findIdx? (fun c => c == '\n') with
    | some j => some (run.length - 1 - j)
    | none => none

/-- Total length of a noise-pattern match anchored at a line start. -/
def noiseMatchLen (t : List Char) : Option Nat :=
  let w := (t.takeWhile isPySpace).length
  let r := t.drop w
  match noiseAltLen r with
  | none => none
  | some a =>
    match noiseTailLen (r.drop a) with
    | none => none
    | some k => some (w + a + k)

/-- Scanner for the noise-line substitution: try a match at every line
start, remove matches, advance one character otherwise. The boolean says
whether the current position is a line start. Each match consumes at
least one character, so fuel equal to the text length is exact. -/
def noiseGo : Nat → List Char → Bool → List Char
  | 0, s, _ => s
  | f + 1, s, atStart =>
    match s with
    | [] => []
    | c :: ts =>
      if atStart then
        match noiseMatchLen s with
        | some n => noiseGo f (s.drop n) ((s.take n).getLast? == some '\n')
        | none => c :: noiseGo f ts (c == '\n')
      else c :: noiseGo f ts (c == '\n')

/-- The noise-line substitution applied by `generator.py` after cleaning. -/
def noiseStrip (s : List Char) : List Char := noiseGo s.length s true

/-- Match length of the parenthetical-aside pattern (an opening paren,
`no`, whitespace, `html`, then lazily any non-newline characters up to the
first closing paren; `no` and `html` case-insensitive). -/
def parenMatchLen (t : List Char) : Option Nat :=
  match t with
  | '(' :: r1 =>
    if prefCI "no".data r1 then
      let r2 := r1.drop 2
      let w := (r2.takeWhile isPySpace).length
      if w == 0 then none
      else
        let r3 := r2.drop w
        if prefCI "html".data r3 then
          let r4 := r3.drop 4
          let body := r4.takeWhile (fun c => !(c == ')') && !(c == '\n'))
          match r4.drop body.length with
          | ')' :: _ => some (1 + 2 + w + 4 + body.length + 1)
          | _ => none
        else none
    else none
  | _ => none

/-- Scanner removing every parenthetical-aside match. -/
def parenGo : Nat → List Char → List Char
  | 0, s => s
  | f + 1, s =>
    match s with
    | [] => []
    | c :: ts =>
      match parenMatchLen s with
      | some n => parenGo f (s.drop n)
      | none => c :: parenGo f ts

/-- The parenthetical-aside substitution of `generator.py`. -/
def parenStrip (s : List Char) : List Char := parenGo s.length s

/-- Match length of the flexible separator pattern of `generator.py`
(three or more dashes, optional whitespace, `HTML` case-insensitive,
optional whitespace, three or more dashes) at the given position. -/
def sepMatchLen (t : List Char) : Option Nat :=
  let d1 := (t.takeWhile (fun c => c == '-')).length
  if d1 < 3 then none
  else
    let r1 := t.drop d1
    let w1 := (r1.takeWhile isPySpace).length
    let r2 := r1.drop w1
    if prefCI "html".data r2 then
      let r3 := r2.drop 4
      let w2 := (r3.takeWhile isPySpace).length
      let r4 := r3.drop w2
      let d2 := (r4.takeWhile (fun c => c == '-')).length
      if d2 < 3 then none else some (d1 + w1 + 4 + w2 + d2)
    else none

/-- Leftmost separator match as a start index and a length. -/
def sepFindFrom : List Char → Option (Nat × Nat)
  | [] => none
  | c :: ts =>
    match sepMatchLen (c :: ts) with
    | some n => some (0, n)
    | none => (sepFindFrom ts).map (fun p => (p.1 + 1, p.2))

/-- Split as `re.split` at the first separator match, when one exists. -/
def sepSplit (s : List Char) : Option (List Char × List Char) :=
  (sepFindFrom s).map (fun p => (s.take p.1, s.drop (p.1 + p.2)))

/-- Word character of the regex class (ASCII fragment). -/
def isWordChar (c : Char) : Bool := c.isAlphanum || c == '_'

/-- Does a recognised markup start tag open at this position? The tag set
and the word boundary after `a` follow the fallback pattern of
`generator.py` (case-insensitive). -/
def tagAt (t : List Char) : Bool :=
  match t with
  | '<' :: r =>
    prefCI "div".data r || prefCI "section".data r || prefCI "button".data r ||
    prefCI "nav".data r || prefCI "header".data r || prefCI "footer".data r ||
    (match r with
     | a :: rest =>
       a.toLower == 'a' &&
         !(match rest with | x :: _ => isWordChar x | [] => false)
     | [] => false)
  | _ => false

/-- Index of the leftmost markup-tag match. -/
def tagFindFrom : List Char → Option Nat
  | [] => none
  | c :: ts => if tagAt (c :: ts) then some 0 else (tagFindFrom ts).map (· + 1)

/-- Does a source-start token (`import`, `@Component`, `export`,
case-insensitively) begin at this position? The fourth alternative of
the source pattern, an import with a brace, can only match where the
first already matches, so the start index is unchanged by it. -/
def tsTokenAt (t : List Char) : Bool :=
  prefCI "import".data t || prefCI "@component".data t || prefCI "export".data t

/-- Index of the leftmost source-start token. -/
def tsFindFrom : List Char → Option Nat
  | [] => none
  | c :: ts => if tsTokenAt (c :: ts) then some 0 else (tsFindFrom ts).map (· + 1)

/-- Discard leading prose before the first source-start token, keeping the
segment unchanged when no token occurs. -/
def tsTrim (s : List Char) : List Char :=
  match tsFindFrom s with
  | some i => s.drop i
  | none => s

/-- Discard leading prose before the first markup-open character. -/
def htmlTrim (s : List Char) : List Char :=
  match s.findIdx? (fun c => c == '<') with
  | some i => s.drop i
  | none => s

/-- Does the trailing-remnant pattern (optional whitespace, a run of at
least three dashes or three backticks, optional whitespace, end of
string) match the whole remaining text at this position? -/
def tailMatchAt (t : List Char) : Bool :=
  let r1 := t.drop ((t.takeWhile isPySpace).length)
  let dr := (r1.takeWhile (fun c => c == '-')).length
  if 3 ≤ dr then (r1.drop dr).all isPySpace
  else
    let tr := (r1.takeWhile (fun c => c == '\x60')).length
    3 ≤ tr && (r1.drop tr).all isPySpace

/-- Leftmost start of a trailing-remnant match. -/
def tailFindFrom : List Char → Option Nat
  | [] => none
  | c :: ts =>
    if tailMatchAt (c :: ts) then some 0 else (tailFindFrom ts).map (· + 1)

/-- Remove the trailing separator or fence remnant, when present. -/
def remnantStrip (s : List Char) : List Char :=
  match tailFindFrom s with
  | some i => s.take i
  | none => s

/-- Inline-template capture at this position: `template`, optional
whitespace, a colon, optional whitespace, a quote, then the lazily
matched body up to the same quote. Returns the body. -/
def tplMatchAt (t : List Char) : Option (List Char) :=
  if prefB "template".data t then
    let r1 := t.drop 8
    let r2 := r1.drop ((r1.takeWhile isPySpace).length)
    match r2 with
    | ':' :: r3 =>
      let r4 := r3.drop ((r3.takeWhile isPySpace).length)
      match r4 with
      | q :: r5 =>
        if q == '\x27' || q == '"' || q == '\x60' then
          let body := r5.takeWhile (fun c => !(c == q))
          if body.length < r5.length then some body else none
        else none
      | [] => none
    | _ => none
  else none

/-- Leftmost inline-template capture in the text. -/
def tplFindFrom : List Char → Option (List Char)
  | [] => none
  | c :: ts =>
    match tplMatchAt (c :: ts) with
    | some b => some b
    | none => tplFindFrom ts

/-- Match length of the inline-template removal pattern (an optional
leading comma, optional whitespace, then the quoted template field; the
dot-all lazy body runs to the same quote). -/
def tplRemoveMatchLen (t : List Char) : Option Nat :=
  let cw : Nat × List Char := match t with | ',' :: r => (1, r) | _ => (0, t)
  let w := (cw.2.takeWhile isPySpace).length
  let r1 := cw.2.drop w
  if prefB "template".data r1 then
    let r2 := r1.drop 8
    let w2 := (r2.takeWhile isPySpace).length
    match r2.drop w2 with
    | ':' :: r3 =>
      let w3 := (r3.takeWhile isPySpace).length
      match r3.drop w3 with
      | q :: r5 =>
        if q == '\x27' || q == '"' || q == '\x60' then
          let body := r5.takeWhile (fun c => !(c == q))
          if body.length < r5.length then
            some (cw.1 + w + 8 + w2 + 1 + w3 + 1 + body.length + 1)
          else none
        else none
      | [] => none
    | _ => none
  else none

/-- Remove the first inline-template field (a substitution with count
one). -/
def tplRemove : List Char → List Char
  | [] => []
  | c :: ts =>
    match tplRemoveMatchLen (c :: ts) with
    | some n => (c :: ts).drop n
    | none => c :: tplRemove ts

/-- Collapse a doubled comma (the substitution of a comma, optional
whitespace, and a comma by one comma, applied left to right). -/
def commaCommaGo : Nat → List Char → List Char
  | 0, s => s
  | f + 1, s =>
    match s with
    | [] => []
    | ',' :: r =>
      let w := (r.takeWhile isPySpace).length
      match r.drop w with
      | ',' :: rest => ',' :: commaCommaGo f rest
      | _ => ',' :: commaCommaGo f r
    | c :: ts => c :: commaCommaGo f ts

/-- All doubled commas collapsed. -/
def commaComma (s : List Char) : List Char := commaCommaGo s.length s

/-- Drop a comma left dangling before a closing brace. -/
def commaBraceGo : Nat → List Char → List Char
  | 0, s => s
  | f + 1, s =>
    match s with
    | [] => []
    | ',' :: r =>
      let w := (r.takeWhile isPySpace).length
      match r.drop w with
      | '\x7d' :: rest => '\x7d' :: commaBraceGo f rest
      | _ => ',' :: commaBraceGo f r
    | c :: ts => c :: commaBraceGo f ts

/-- All dangling commas before closing braces dropped. -/
def commaBrace (s : List Char) : List Char := commaBraceGo s.length s

/-- Does a quoted `templateUrl` field start at this position? -/
def templateUrlQuoteAt (t : List Char) : Bool :=
  if prefB "templateUrl".data t then
    let r1 := t.drop 11
    let r2 := r1.drop ((r1.takeWhile isPySpace).length)
    match r2 with
    | ':' :: r3 =>
      match r3.drop ((r3.takeWhile isPySpace).length) with
      | q :: _ => q == '\x27' || q == '"'
      | [] => false
    | _ => false
  else false

/-- Search for a quoted `templateUrl` field anywhere. -/
def hasTemplateUrlQuote : List Char → Bool
  | [] => false
  | c :: ts => templateUrlQuoteAt (c :: ts) || hasTemplateUrlQuote ts

/-- Match length of the component-decorator opener `@Component`, optional
whitespace, an opening paren, optional whitespace, an opening brace. -/
def componentMatchLen (t : List Char) : Option Nat :=
  if prefB "@Component".data t then
    let r1 := t.drop 10
    let w1 := (r1.takeWhile isPySpace).length
    match r1.drop w1 with
    | '(' :: r2 =>
      let w2 := (r2.takeWhile isPySpace).length
      match r2.drop w2 with
      | '\x7b' :: _ => some (10 + w1 + 1 + w2 + 1)
      | _ => none
    | _ => none
  else none

/-- Insert the given text right after the first component-decorator
opener; identity when no opener occurs (a substitution with count one
keeping the matched group). -/
def componentInsert (ins : List Char) : List Char → List Char
  | [] => []
  | c :: ts =>
    match componentMatchLen (c :: ts) with
    | some n => (c :: ts).take n ++ ins ++ (c :: ts).drop n
    | none => c :: componentInsert ins ts

/-- Match length of a complete quoted `templateUrl` field (either quote
kind on either side, a non-empty body free of quotes). -/
def templateUrlMatchLen (t : List Char) : Option Nat :=
  if prefB "templateUrl".data t then
    let r1 := t.drop 11
    let w1 := (r1.takeWhile isPySpace).length
    match r1.drop w1 with
    | ':' :: r2 =>
      let w2 := (r2.takeWhile isPySpace).length
      match r2.drop w2 with
      | q :: r3 =>
        if q == '\x27' || q == '"' then
          let body := r3.takeWhile (fun c => !(c == '\x27') && !(c == '"'))
          if body.length == 0 then none
          else
            match r3.drop body.length with
            | q2 :: _ =>
              if q2 == '\x27' || q2 == '"' then
                some (11 + w1 + 1 + w2 + 1 + body.length + 1)
              else none
            | [] => none
        else none
      | [] => none
    | _ => none
  else none

/-- The canonical external-template reference text. -/
def canonicalTemplateUrl : List Char :=
  "templateUrl: \x27./app.component.html\x27".data

/-- Normalise every quoted `templateUrl` field to the canonical filename. -/
def templateUrlSubGo : Nat → List Char → List Char
  | 0, s => s
  | f + 1, s =>
    match s with
    | [] => []
    | c :: ts =>
      match templateUrlMatchLen s with
      | some n => canonicalTemplateUrl ++ templateUrlSubGo f (s.drop n)
      | none => c :: templateUrlSubGo f ts

/-- The template-reference normalisation of `generator.py`. -/
def templateUrlSubAll (s : List Char) : List Char := templateUrlSubGo s.length s

/-- Python `s.replace(pat, rep)`: every occurrence, left to right,
non-overlapping. -/
def replaceAllGo (pat rep : List Char) : Nat → List Char → List Char
  | 0, s => s
  | f + 1, s =>
    match s with
    | [] => []
    | c :: ts =>
      if prefB pat s && !pat.isEmpty then rep ++ replaceAllGo pat rep f (s.drop pat.length)
      else c :: replaceAllGo pat rep f ts

/-- Python `s.replace(pat, rep)`. -/
def replaceAll (s pat rep : List Char) : List Char := replaceAllGo pat rep s.length s

/-- Word-bounded occurrence of the two-way-binding token `ngModel`; the
boolean carries whether the previous character is a word character. -/
def ngModelWordFrom : Bool → List Char → Bool
  | _, [] => false
  | prevW, c :: ts =>
    (!prevW && prefB "ngModel".data (c :: ts) &&
      !(match (c :: ts).drop 7 with | x :: _ => isWordChar x | [] => false))
    || ngModelWordFrom (isWordChar c) ts

/-- Search for a word-bounded `ngModel`. -/
def usesNgModelIn (s : List Char) : Bool := ngModelWordFrom false s

/-- Parts of the first component-imports list match: the match length and
the bracket contents. -/
def importsMatchParts (t : List Char) : Option (Nat × List Char) :=
  if prefB "imports".data t then
    let r1 := t.drop 7
    let w1 := (r1.takeWhile isPySpace).length
    match r1.drop w1 with
    | ':' :: r2 =>
      let w2 := (r2.takeWhile isPySpace).length
      match r2.drop w2 with
      | '[' :: r3 =>
        let inner := r3.takeWhile (fun c => !(c == ']'))
        match r3.drop inner.length with
        | ']' :: _ => some (7 + w1 + 1 + w2 + 1 + inner.length + 1, inner)
        | _ => none
      | _ => none
    | _ => none
  else none

/-- Search for a component-imports list. -/
def hasImportsArr : List Char → Bool
  | [] => false
  | c :: ts => (importsMatchParts (c :: ts)).isSome || hasImportsArr ts

/-- Rewrite the first component-imports list through the helper of
`generator.py`: leave the text unchanged when the contents already hold
`FormsModule` as a substring, otherwise normalise the field spelling and
append `FormsModule`. -/
def importsSub : List Char → List Char
  | [] => []
  | c :: ts =>
    match importsMatchParts (c :: ts) with
    | some (n, inner) =>
      if containsB inner "FormsModule".data then c :: ts
      else
        let ni := stripPy inner
        let nw := if ni.isEmpty then "FormsModule".data
          else rstripPy ni ++ ", FormsModule".data
        "imports: [".data ++ nw ++ (']' :: (c :: ts).drop n)
    | none => c :: importsSub ts

/-- The exact CommonModule import line the source looks for. -/
def commonModuleLine : List Char :=
  "import \x7b CommonModule \x7d from \x27@angular/common\x27;".data

/-- The FormsModule import statement injected by the source. -/
def formsImportLine : List Char :=
  "import \x7b FormsModule \x7d from \x27@angular/forms\x27;".data

/-- Inject the FormsModule import when the forms package is not yet
referenced: after the CommonModule import line when that exact line
occurs, otherwise prepended. -/
def importInject (ts : List Char) : List Char :=
  if containsB ts "@angular/forms".data then ts
  else if containsB ts commonModuleLine then
    replaceAll ts commonModuleLine (commonModuleLine ++ '\n' :: formsImportLine)
  else formsImportLine ++ '\n' :: ts

/-- Register the capability in the component-imports list: rewrite an
existing list, else create one after the first component-decorator
opener. -/
def importsRegister (ts : List Char) : List Char :=
  if hasImportsArr ts then importsSub ts
  else componentInsert "\n  imports: [CommonModule, FormsModule],".data ts

/-- The capability-import step of the extractor. -/
def ngStep (raw : List Char) (p : List Char × List Char) : List Char × List Char :=
  if usesNgModelIn p.1 || usesNgModelIn p.2 || usesNgModelIn raw then
    (importsRegister (importInject p.1), p.2)
  else p

/-- The text inserted when an inline template is externalised. -/
def inlineTplInsertion : List Char :=
  "\n  templateUrl: \x27./app.component.html\x27,".data

/-- The inline-template step of the extractor: when an inline template
field occurs and the secondary segment is blank, extract the body,
remove the field, collapse dangling separators, and reference the
canonical external template when none is referenced. -/
def tplStep (p : List Char × List Char) : List Char × List Char :=
  match tplFindFrom p.1 with
  | some body =>
    if (stripPy p.2).isEmpty then
      let ts1 := tplRemove p.1
      let ts2 := commaBrace (commaComma ts1)
      let ts3 := if hasTemplateUrlQuote ts2 then ts2
        else componentInsert inlineTplInsertion ts2
      (ts3, stripPy body)
    else p
  | none => p

/-- The cleaned text: code fences dropped, noise lines and parenthetical
asides removed. -/
def cleanFull (raw : List Char) : List Char :=
  parenStrip (noiseStrip (cleanOutput raw))

/-- Split the cleaned text at the first separator match, falling back to
the first markup tag, falling back to the whole text as primary. -/
def splitParts (cleaned : List Char) : List Char × List Char :=
  match sepSplit cleaned with
  | some p => p
  | none =>
    match tagFindFrom cleaned with
    | some i => (cleaned.take i, cleaned.drop i)
    | none => (cleaned, [])

/-- Segmentation and trimming stages of the extractor, before the
normalisation steps. -/
def preNormalize (raw : List Char) : List Char × List Char :=
  (remnantStrip (stripPy (tsTrim (splitParts (cleanFull raw)).1)),
   remnantStrip (stripPy (htmlTrim (splitParts (cleanFull raw)).2)))

/-- The output extractor of `generate_component` in `generator.py`,
modelled from the raw model response onward (the model call itself is an
external collaborator). -/
def generate_component_extract (raw : List Char) : Artifact :=
  let p1 := preNormalize raw
  let p2 := tplStep p1
  let p3 := ngStep raw p2
  ⟨stripPy (templateUrlSubAll p3.1), stripPy p3.2, raw⟩

/-- Match length of the exact correction-path separator (three dashes,
optional whitespace, `HTML` case-sensitive, optional whitespace, three
dashes). -/
def sepNormMatchLen (t : List Char) : Option Nat :=
  if prefB "---".data t then
    let r1 := t.drop 3
    let w1 := (r1.takeWhile isPySpace).length
    if prefB "HTML".data (r1.drop w1) then
      let r2 := r1.drop (w1 + 4)
      let w2 := (r2.takeWhile isPySpace).length
      if prefB "---".data (r2.drop w2) then some (3 + w1 + 4 + w2 + 3) else none
    else none
  else none

/-- Normalise every correction-path separator to the literal form. -/
def sepNormGo : Nat → List Char → List Char
  | 0, s => s
  | f + 1, s =>
    match s with
    | [] => []
    | c :: ts =>
      match sepNormMatchLen s with
      | some n => "---HTML---".data ++ sepNormGo f (s.drop n)
      | none => c :: sepNormGo f ts

/-- The separator normalisation of `corrector.py`. -/
def sepNormalize (s : List Char) : List Char := sepNormGo s.length s

/-- Python `s.split(pat, 1)` when `pat` occurs, as the pair of segments. -/
def splitOnFirst (pat : List Char) : List Char → Option (List Char × List Char)
  | [] => none
  | c :: ts =>
    if prefB pat (c :: ts) then some ([], (c :: ts).drop pat.length)
    else (splitOnFirst pat ts).map (fun p => (c :: p.1, p.2))

/-- The reduced extraction performed inside the correction loop of
`corrector.py`: fence cleaning, exact separator normalisation and split
(reusing the previous secondary markup when the separator is absent),
prose trimming, and trailing-remnant stripping. -/
def correctionExtract (prevHtml raw : List Char) : Artifact :=
  let cleaned := cleanOutput raw
  let normalised := sepNormalize cleaned
  let p :=
    match splitOnFirst "---HTML---".data normalised with
    | some q => q
    | none => (normalised, prevHtml)
  let ts_code := remnantStrip (stripPy (tsTrim p.1))
  let html_code := remnantStrip (stripPy (htmlTrim p.2))
  ⟨stripPy ts_code, stripPy html_code, raw⟩

/-- One recorded attempt of the correction orchestrator. -/
structure AttemptRec where
  attempt : Nat
  code : Artifact
  validation : ValidationResult
deriving DecidableEq

/-- The record returned by `generate_with_correction`. -/
structure CorrectionOutcome where
  final_code : Artifact
  validation : ValidationResult
  attempts : Nat
  success : Bool
deriving DecidableEq

/-- The retry bound of `corrector.py`. -/
def MAX_RETRIES : Nat := 2

/-- The correction loop of `corrector.py`. The collaborator is modelled
as a function from the correction-call index to the raw response text;
the loop also threads the attempt log and the collaborator call count. -/
def correctionLoop (ac ar : List (List Char)) (corr : Nat → List Char) :
    Nat → Nat → Artifact → ValidationResult → List AttemptRec → Nat →
      Artifact × ValidationResult × List AttemptRec × Nat
  | 0, _, result, validation, attempts, calls => (result, validation, attempts, calls)
  | n + 1, k, result, validation, attempts, calls =>
    if validation.valid then (result, validation, attempts, calls)
    else
      let raw := corr k
      let result2 := correctionExtract result.html raw
      let validation2 := validate_component ac ar result2
      correctionLoop ac ar corr n (k + 1) result2 validation2
        (attempts ++ [⟨k + 2, result2, validation2⟩]) (calls + 1)

/-- The correction orchestrator `generate_with_correction` of
`corrector.py`, parameterised by the rule-set lists, the artifact
returned by the initial generation collaborator call, and the raw texts
of the correction calls. Besides the returned record it exposes the
attempt log and the total collaborator call count (the initial call plus
one per correction). -/
def generate_with_correction (ac ar : List (List Char)) (genResult : Artifact)
    (corr : Nat → List Char) : CorrectionOutcome × List AttemptRec × Nat :=
  let validation := validate_component ac ar genResult
  let r := correctionLoop ac ar corr MAX_RETRIES 0 genResult validation
    [⟨1, genResult, validation⟩] 1
  ({ final_code := r.1, validation := r.2.1, attempts := r.2.2.1.length,
     success := r.2.1.valid }, r.2.2.1, r.2.2.2)

/-- Recogniser of colour-check messages. -/
def isColorMsg (e : List Char) : Bool := prefB "UNAUTHORIZED_COLOR".data e

/-- Recogniser of corner-radius messages. -/
def isRadiusMsg (e : List Char) : Bool := prefB "UNAUTHORIZED_RADIUS".data e

/-- Default attempt record used with `List.getD`. -/
def dummyAttempt : AttemptRec := ⟨0, ⟨[], [], []⟩, ⟨true, [], 0⟩⟩

/-- Case-insensitive membership, as worded by the specification: some
entry of the allowed set agrees with the literal up to case. -/
def ciMember (c : List Char) (allowed : List (List Char)) : Prop :=
  ∃ a ∈ allowed, lowerStr a = lowerStr c

instance (c : List Char) (allowed : List (List Char)) :
    Decidable (ciMember c allowed) := by
  unfold ciMember; infer_instance

/-- Number of positions at which the pattern occurs in the text
(occurrences may overlap; distinct positions count separately). -/
def countOcc (pat : List Char) : List Char → Nat
  | [] => 0
  | c :: ts => (if prefB pat (c :: ts) then 1 else 0) + countOcc pat ts

/-- Search for a component-decorator opener anywhere in the text. -/
def hasComponentOpener : List Char → Bool
  | [] => false
  | c :: ts => (componentMatchLen (c :: ts)).isSome || hasComponentOpener ts

/-- Invariant of the correction-loop state, stated on the tuple of the
current artifact, current validation, attempt log, and call count: the
call count equals the number of attempts, attempts are numbered
contiguously from one, the last attempt holds the current artifact and
validation, every attempt followed by another was invalid, and every
later attempt is the reduced correction extraction of the corresponding
collaborator response validated afresh. -/
def loopPost (ac ar : List (List Char)) (corr : Nat → List Char)
    (out : Artifact × ValidationResult × List AttemptRec × Nat) : Prop :=
  out.2.2.2 = out.2.2.1.length
  ∧ (∀ i, i < out.2.2.1.length → (out.2.2.1.getD i dummyAttempt).attempt = i + 1)
  ∧ out.2.2.1.getD (out.2.2.1.length - 1) dummyAttempt
      = ⟨out.2.2.1.length, out.1, out.2.1⟩
  ∧ (∀ i, i + 1 < out.2.2.1.length →
      (out.2.2.1.getD i dummyAttempt).validation.valid = false)
  ∧ (∀ i, i + 1 < out.2.2.1.length →
      (out.2.2.1.getD (i + 1) dummyAttempt).code =
          correctionExtract ((out.2.2.1.getD i dummyAttempt).code.html) (corr i)
        ∧ (out.2.2.1.getD (i + 1) dummyAttempt).validation =
          validate_component ac ar ((out.2.2.1.getD (i + 1) dummyAttempt).code))

theorem validate_decomp (ac ar : List (List Char)) (a : Artifact) :
    (validate_component ac ar a).errors =
      colorErrors ac (fullCodeOf a) ++ fontErrors (fullCodeOf a)
        ++ radiusErrors ar (fullCodeOf a) ++ syntaxErrors a.ts
        ++ decoratorErrors a.ts ++ classErrors a.ts := by
  simp only [validate_component, colorErrors, fontErrors, radiusErrors,
    syntaxErrors, decoratorErrors, classErrors, List.append_assoc]

theorem prefB_iff (p t : List Char) : prefB p t = true ↔ p <+: t := by
  induction p generalizing t with
  | nil => simp [prefB, List.nil_prefix]
  | cons c cs ih =>
    cases t with
    | nil => simp [prefB]
    | cons d ds => simp [prefB, ih, List.cons_prefix_cons]

theorem containsB_iff (t p : List Char) : containsB t p = true ↔ p <:+: t := by
  induction t with
  | nil => simp [containsB, List.isEmpty_iff, List.infix_nil]
  | cons c ts ih => simp [containsB, prefB_iff, ih, List.infix_cons_iff]

theorem lstripPy_suffixOf (l : List Char) : lstripPy l <:+ l :=
  List.dropWhile_suffix _

theorem rstripPy_prefixOf (l : List Char) : rstripPy l <+: l := by
  have h2 : (l.reverse.dropWhile isPySpace).reverse <+: l.reverse.reverse :=
    List.reverse_prefix.mpr (List.dropWhile_suffix _)
  simpa [rstripPy] using h2

theorem stripPy_infixOf (l : List Char) : stripPy l <:+: l :=
  ((rstripPy_prefixOf (lstripPy l)).isInfix).trans ((lstripPy_suffixOf l).isInfix)

theorem tsTrim_suffixOf (s : List Char) : tsTrim s <:+ s := by
  unfold tsTrim
  split
  · exact List.drop_suffix _ _
  · exact List.suffix_refl _

theorem htmlTrim_suffixOf (s : List Char) : htmlTrim s <:+ s := by
  unfold htmlTrim
  split
  · exact List.drop_suffix _ _
  · exact List.suffix_refl _

theorem remnantStrip_prefixOf (s : List Char) : remnantStrip s <+: s := by
  unfold remnantStrip
  split
  · exact List.take_prefix _ _
  · exact List.prefix_refl _

theorem splitParts_decomp (c : List Char) :
    ∃ m, (splitParts c).1 ++ m ++ (splitParts c).2 = c := by
  unfold splitParts
  cases hs : sepSplit c with
  | some p =>
    simp only
    unfold sepSplit at hs
    obtain ⟨q, hq, hfq⟩ := Option.map_eq_some'.mp hs
    refine ⟨(c.drop q.1).take q.2, ?_⟩
    rw [← hfq]
    simp only
    rw [List.append_assoc, List.drop_take_append_drop, List.take_append_drop]
  | none =>
    cases ht : tagFindFrom c with
    | some i =>
      simp only
      exact ⟨[], by simp [List.take_append_drop]⟩
    | none => exact ⟨[], by simp⟩

theorem infix_pair_sublist {x a y b : List Char} (m : List Char)
    (hx : x <:+: a) (hy : y <:+: b) :
    List.Sublist (x ++ y) (a ++ m ++ b) := by
  obtain ⟨a1, a2, ha⟩ := hx
  obtain ⟨b1, b2, hb⟩ := hy
  have h1 : List.Sublist x (a1 ++ (x ++ (a2 ++ m ++ b1))) :=
    (List.sublist_append_left x _).trans (List.sublist_append_right a1 _)
  have h2 : List.Sublist y (y ++ b2) := List.sublist_append_left y b2
  have h3 := List.Sublist.append h1 h2
  have heq : a1 ++ (x ++ (a2 ++ m ++ b1)) ++ (y ++ b2) = a ++ m ++ b := by
    rw [← ha, ← hb]; simp [List.append_assoc]
  rwa [heq] at h3

/-- Claim C1, counterexample: for the raw input `ngModel` the extractor
injects the FormsModule import, so the concatenation of the extracted
primary source and secondary markup is not a subsequence of the cleaned
raw input. -/
theorem c1_counterexample :
    ¬ List.Sublist ((generate_component_extract "ngModel".data).ts
        ++ (generate_component_extract "ngModel".data).html)
      (cleanFull "ngModel".data) := by
  intro h
  exact absurd h.length_le (by decide)

/-- Claim C1 (amended): for every raw input on which the inline-template
step, the capability-import step, and the template-reference
normalisation leave the segments unchanged (in particular whenever their
triggers are absent), the concatenation of the extracted primary source
and secondary markup is a subsequence of the cleaned raw input; the
normalisation steps may otherwise introduce characters of their own. -/
theorem c1_amended_subsequence (raw : List Char)
    (h1 : tplStep (preNormalize raw) = preNormalize raw)
    (h2 : ngStep raw (preNormalize raw) = preNormalize raw)
    (h3 : templateUrlSubAll (preNormalize raw).1 = (preNormalize raw).1) :
    List.Sublist ((generate_component_extract raw).ts
        ++ (generate_component_extract raw).html)
      (cleanFull raw) := by
  have hgen : generate_component_extract raw =
      ⟨stripPy (preNormalize raw).1, stripPy (preNormalize raw).2, raw⟩ := by
    unfold generate_component_extract
    show ({ ts := stripPy (templateUrlSubAll (ngStep raw (tplStep (preNormalize raw))).1),
            html := stripPy (ngStep raw (tplStep (preNormalize raw))).2,
            raw := raw } : Artifact) = _
    rw [h1, h2, h3]
  have hts0 : (generate_component_extract raw).ts = stripPy (preNormalize raw).1 := by
    rw [hgen]
  have hhtml0 : (generate_component_extract raw).html = stripPy (preNormalize raw).2 := by
    rw [hgen]
  rw [hts0, hhtml0]
  obtain ⟨m, hm⟩ := splitParts_decomp (cleanFull raw)
  have hts : stripPy (preNormalize raw).1 <:+: (splitParts (cleanFull raw)).1 := by
    simp only [preNormalize]
    exact (stripPy_infixOf _).trans ((remnantStrip_prefixOf _).isInfix.trans
      ((stripPy_infixOf _).trans (tsTrim_suffixOf _).isInfix))
  have hh : stripPy (preNormalize raw).2 <:+: (splitParts (cleanFull raw)).2 := by
    simp only [preNormalize]
    exact (stripPy_infixOf _).trans ((remnantStrip_prefixOf _).isInfix.trans
      ((stripPy_infixOf _).trans (htmlTrim_suffixOf _).isInfix))
  have hfin := infix_pair_sublist m hts hh
  rw [hm] at hfin
  exact hfin

/-- Witness for the amended claim C1 at a concrete raw input without any
normalisation trigger. -/
theorem c1_amended_witness :
    List.Sublist ((generate_component_extract "export class X".data).ts
        ++ (generate_component_extract "export class X".data).html)
      (cleanFull "export class X".data) :=
  c1_amended_subsequence "export class X".data (by decide) (by decide) (by decide)

theorem isColorMsg_colorMsg (c : List Char) (al : List (List Char)) :
    isColorMsg (colorMsg c al) = true := rfl

theorem isColorMsg_fontMsg : isColorMsg fontMsg = false := rfl

theorem isColorMsg_radiusMsg (ar : List (List Char)) :
    isColorMsg (radiusMsg ar) = false := rfl

theorem isColorMsg_syntaxMsg (o c : Char) : isColorMsg (syntaxMsg o c) = false := rfl

theorem isColorMsg_decoratorMsg : isColorMsg decoratorMsg = false := rfl

theorem isColorMsg_classMsg : isColorMsg classMsg = false := rfl

theorem isRadiusMsg_colorMsg (c : List Char) (al : List (List Char)) :
    isRadiusMsg (colorMsg c al) = false := rfl

theorem isRadiusMsg_fontMsg : isRadiusMsg fontMsg = false := rfl

theorem isRadiusMsg_radiusMsg (ar : List (List Char)) :
    isRadiusMsg (radiusMsg ar) = true := rfl

theorem isRadiusMsg_syntaxMsg (o c : Char) : isRadiusMsg (syntaxMsg o c) = false := rfl

theorem isRadiusMsg_decoratorMsg : isRadiusMsg decoratorMsg = false := rfl

theorem isRadiusMsg_classMsg : isRadiusMsg classMsg = false := rfl

theorem filter_if_single_false {p : List Char → Bool} (c : Prop) [Decidable c]
    (m : List Char) (hm : p m = false) :
    (if c then ([] : List (List Char)) else [m]).filter p = [] := by
  split <;> simp [hm]

theorem filter_color_validate (ac ar : List (List Char)) (a : Artifact) :
    (validate_component ac ar a).errors.filter isColorMsg
      = colorErrors ac (fullCodeOf a) := by
  rw [validate_decomp]
  simp only [List.filter_append]
  have h1 : (colorErrors ac (fullCodeOf a)).filter isColorMsg
      = colorErrors ac (fullCodeOf a) := by
    refine List.filter_eq_self.mpr ?_
    intro x hx
    obtain ⟨c, _, rfl⟩ := List.mem_map.mp hx
    exact isColorMsg_colorMsg _ _
  have h2 : (fontErrors (fullCodeOf a)).filter isColorMsg = [] :=
    filter_if_single_false _ _ isColorMsg_fontMsg
  have h3 : (radiusErrors ar (fullCodeOf a)).filter isColorMsg = [] := by
    unfold radiusErrors
    split
    · rfl
    · exact filter_if_single_false _ _ (isColorMsg_radiusMsg ar)
  have h4 : (syntaxErrors a.ts).filter isColorMsg = [] := by
    unfold syntaxErrors
    simp only [List.filter_append]
    rw [filter_if_single_false _ _ (isColorMsg_syntaxMsg _ _),
      filter_if_single_false _ _ (isColorMsg_syntaxMsg _ _),
      filter_if_single_false _ _ (isColorMsg_syntaxMsg _ _)]
    rfl
  have h5 : (decoratorErrors a.ts).filter isColorMsg = [] :=
    filter_if_single_false _ _ isColorMsg_decoratorMsg
  have h6 : (classErrors a.ts).filter isColorMsg = [] :=
    filter_if_single_false _ _ isColorMsg_classMsg
  rw [h1, h2, h3, h4, h5, h6]
  simp

theorem filter_radius_validate (ac ar : List (List Char)) (a : Artifact) :
    (validate_component ac ar a).errors.filter isRadiusMsg
      = radiusErrors ar (fullCodeOf a) := by
  rw [validate_decomp]
  simp only [List.filter_append]
  have h1 : (colorErrors ac (fullCodeOf a)).filter isRadiusMsg = [] := by
    refine List.filter_eq_nil_iff.mpr ?_
    intro x hx
    obtain ⟨c, _, rfl⟩ := List.mem_map.mp hx
    simp [isRadiusMsg_colorMsg]
  have h2 : (fontErrors (fullCodeOf a)).filter isRadiusMsg = [] :=
    filter_if_single_false _ _ isRadiusMsg_fontMsg
  have h3 : (radiusErrors ar (fullCodeOf a)).filter isRadiusMsg
      = radiusErrors ar (fullCodeOf a) := by
    refine List.filter_eq_self.mpr ?_
    intro x hx
    unfold radiusErrors at hx
    split at hx
    · simp at hx
    · split at hx
      · simp at hx
      · simp at hx
        subst hx
        exact isRadiusMsg_radiusMsg ar
  have h4 : (syntaxErrors a.ts).filter isRadiusMsg = [] := by
    unfold syntaxErrors
    simp only [List.filter_append]
    rw [filter_if_single_false _ _ (isRadiusMsg_syntaxMsg _ _),
      filter_if_single_false _ _ (isRadiusMsg_syntaxMsg _ _),
      filter_if_single_false _ _ (isRadiusMsg_syntaxMsg _ _)]
    rfl
  have h5 : (decoratorErrors a.ts).filter isRadiusMsg = [] :=
    filter_if_single_false _ _ isRadiusMsg_decoratorMsg
  have h6 : (classErrors a.ts).filter isRadiusMsg = [] :=
    filter_if_single_false _ _ isRadiusMsg_classMsg
  rw [h1, h2, h3, h4, h5, h6]
  simp

/-- Claim C5: the validator returns valid exactly when the error count is
zero, the error count equals the length of the error list, and the error
list is the concatenation of the results of the six checks in the fixed
order colours, font, radius, bracket balance, decorator, class — every
check contributing unconditionally. -/
theorem c5_validator_shape (ac ar : List (List Char)) (a : Artifact) :
    ((validate_component ac ar a).valid = true
        ↔ (validate_component ac ar a).error_count = 0)
    ∧ (validate_component ac ar a).error_count
        = (validate_component ac ar a).errors.length
    ∧ (validate_component ac ar a).errors =
        colorErrors ac (fullCodeOf a) ++ fontErrors (fullCodeOf a)
          ++ radiusErrors ar (fullCodeOf a) ++ syntaxErrors a.ts
          ++ decoratorErrors a.ts ++ classErrors a.ts := by
  refine ⟨?_, ?_, validate_decomp ac ar a⟩
  · simp only [validate_component]
    simp [List.isEmpty_iff, List.length_eq_zero]
  · simp only [validate_component]

/-- Claim C6: the colour check emits one error, naming the literal and
the lowercased allowed set, for exactly the scanned hex literals that
are not case-insensitive members of the allowed colours; an input with
literal `#000000` against allowed set `#ffffff` yields exactly that one
colour error, and an input with only `#ffffff` yields none. -/
theorem c6_color_check :
    (∀ ac ar : List (List Char), ∀ a : Artifact,
      (validate_component ac ar a).errors.filter isColorMsg =
        ((findColors (fullCodeOf a)).filter (fun c => decide (¬ ciMember c ac))).map
          (fun c => colorMsg c (ac.map lowerStr)))
    ∧ (validate_component ["#ffffff".data] []
        ⟨"color: #000000".data, [], []⟩).errors.filter isColorMsg
        = [colorMsg "#000000".data ["#ffffff".data]]
    ∧ (validate_component ["#ffffff".data] []
        ⟨"background: #ffffff".data, [], []⟩).errors.filter isColorMsg
        = [] := by
  refine ⟨?_, by decide, by decide⟩
  intro ac ar a
  rw [filter_color_validate]
  unfold colorErrors
  refine congrArg (List.map _) (List.filter_congr ?_)
  intro x _
  rw [decide_eq_decide]
  simp [ciMember, lowerStr]

/-- Claim C7: a corner-radius error is emitted exactly when at least one
radius usage is detected by the four patterns and no detected value is a
member of the allowed radii; an artifact mixing one allowed and one
disallowed detected value passes, and an artifact with no detected usage
passes. -/
theorem c7_radius_check :
    (∀ ac ar : List (List Char), ∀ a : Artifact,
      ((validate_component ac ar a).errors.filter isRadiusMsg ≠ [] ↔
        (detectedRadii (fullCodeOf a) ≠ []
          ∧ ∀ r ∈ detectedRadii (fullCodeOf a), r ∉ ar)))
    ∧ (validate_component [] ["4px".data]
        ⟨"rounded-sm rounded-[20px]".data, [], []⟩).errors.filter isRadiusMsg = []
    ∧ (validate_component [] ["4px".data]
        ⟨"plain text".data, [], []⟩).errors.filter isRadiusMsg = [] := by
  refine ⟨?_, by decide, by decide⟩
  intro ac ar a
  rw [filter_radius_validate]
  unfold radiusErrors
  by_cases h1 : (detectedRadii (fullCodeOf a)).isEmpty
  · simp [h1, List.isEmpty_iff.mp h1]
  · simp only [h1, Bool.false_eq_true, if_false]
    by_cases h2 : (detectedRadii (fullCodeOf a)).any (fun r => decide (r ∈ ar)) = true
    · rw [List.any_eq_true] at h2
      obtain ⟨r, hr, hmem⟩ := h2
      simp only [decide_eq_true_eq] at hmem
      simp only [List.any_eq_true]
      rw [if_pos]
      · simp only [ne_eq, not_true_eq_false, false_iff, not_and, not_forall]
        intro _
        exact ⟨r, hr, by simp [hmem]⟩
      · exact ⟨r, hr, by simp [hmem]⟩
    · simp only [List.any_eq_true] at h2
      rw [if_neg]
      · simp only [ne_eq, List.cons_ne_nil, not_false_eq_true, true_iff]
        refine ⟨by simpa [List.isEmpty_iff] using h1, ?_⟩
        intro r hr hmem
        exact h2 ⟨r, hr, by simp [hmem]⟩
      · simpa [List.any_eq_true] using h2

/-- Claim C10: symbolic detection is substring containment and the bare
token `rounded` maps to `8px`, so any text containing that substring has
`8px` among the detected radii, and whenever `8px` is allowed no
corner-radius error is emitted for such a text. -/
theorem c10_rounded_substring (ac ar : List (List Char)) (a : Artifact)
    (h : containsB (fullCodeOf a) "rounded".data = true) :
    "8px".data ∈ detectedRadii (fullCodeOf a)
    ∧ ("8px".data ∈ ar →
        (validate_component ac ar a).errors.filter isRadiusMsg = []) := by
  have hmem : "8px".data ∈ tailwindDetect (fullCodeOf a) := by
    unfold tailwindDetect tailwindMap
    simp [h]
  have hdet : "8px".data ∈ detectedRadii (fullCodeOf a) := by
    unfold detectedRadii
    simp only [List.mem_append]
    exact Or.inl (Or.inl (Or.inr hmem))
  refine ⟨hdet, fun h8 => ?_⟩
  rw [filter_radius_validate]
  unfold radiusErrors
  have hne : (detectedRadii (fullCodeOf a)).isEmpty = false := by
    rcases he : detectedRadii (fullCodeOf a) with _ | ⟨x, xs⟩
    · rw [he] at hdet; simp at hdet
    · rfl
  have hany : (detectedRadii (fullCodeOf a)).any (fun r => decide (r ∈ ar)) = true := by
    rw [List.any_eq_true]
    exact ⟨_, hdet, by simp [h8]⟩
  simp [hne, hany]

/-- Witness for claim C10 at the concrete text `surrounded`. -/
theorem c10_witness :
    containsB (fullCodeOf ⟨"surrounded".data, [], []⟩) "rounded".data = true
    ∧ ("8px".data ∈ detectedRadii (fullCodeOf ⟨"surrounded".data, [], []⟩)
      ∧ ("8px".data ∈ ["8px".data] →
          (validate_component [] ["8px".data]
            ⟨"surrounded".data, [], []⟩).errors.filter isRadiusMsg = [])) :=
  ⟨by decide, c10_rounded_substring [] ["8px".data] ⟨"surrounded".data, [], []⟩ (by decide)⟩

theorem getD_append_left {α : Type} (l l2 : List α) (i : Nat) (d : α)
    (h : i < l.length) : (l ++ l2).getD i d = l.getD i d := by
  simp [List.getD, List.getElem?_append, h]

theorem getD_append_last {α : Type} (l : List α) (x d : α) :
    (l ++ [x]).getD l.length d = x := by
  simp [List.getD]

theorem correctionLoop_spec (ac ar : List (List Char)) (corr : Nat → List Char) :
    ∀ (n k : Nat) (result : Artifact) (validation : ValidationResult)
      (attempts : List AttemptRec) (calls : Nat),
      attempts.length = k + 1 →
      loopPost ac ar corr (result, validation, attempts, calls) →
      loopPost ac ar corr
          (correctionLoop ac ar corr n k result validation attempts calls)
        ∧ k + 1 ≤
          (correctionLoop ac ar corr n k result validation attempts calls).2.2.1.length
        ∧ (correctionLoop ac ar corr n k result validation attempts calls).2.2.1.length
          ≤ k + 1 + n := by
  intro n
  induction n with
  | zero =>
    intro k result validation attempts calls hlen hpost
    exact ⟨hpost, by simp [correctionLoop, hlen], by simp [correctionLoop, hlen]⟩
  | succ n ih =>
    intro k result validation attempts calls hlen hpost
    by_cases hv : validation.valid = true
    · have hret : correctionLoop ac ar corr (n + 1) k result validation attempts calls
          = (result, validation, attempts, calls) := by
        simp [correctionLoop, hv]
      rw [hret]
      refine ⟨hpost, by simp [hlen], ?_⟩
      simp only [hlen]
      omega
    · have hv' : validation.valid = false := by
        revert hv; cases validation.valid <;> simp
      have hstep : correctionLoop ac ar corr (n + 1) k result validation attempts calls
          = correctionLoop ac ar corr n (k + 1)
              (correctionExtract result.html (corr k))
              (validate_component ac ar (correctionExtract result.html (corr k)))
              (attempts ++ [(⟨k + 2, correctionExtract result.html (corr k),
                validate_component ac ar (correctionExtract result.html (corr k))⟩ :
                  AttemptRec)])
              (calls + 1) := by
        simp [correctionLoop, hv]
      obtain ⟨hcalls, hnum, hlast, hinv, hchain⟩ := hpost
      dsimp only at hcalls hnum hlast hinv hchain
      have hlastk : attempts.getD k dummyAttempt = ⟨k + 1, result, validation⟩ := by
        have h := hlast
        rw [hlen] at h
        simpa [hlen] using h
      have hlen2 : (attempts ++ [(⟨k + 2, correctionExtract result.html (corr k),
          validate_component ac ar (correctionExtract result.html (corr k))⟩ :
            AttemptRec)]).length = (k + 1) + 1 := by
        simp [hlen]
      have hpost2 : loopPost ac ar corr
          (correctionExtract result.html (corr k),
           validate_component ac ar (correctionExtract result.html (corr k)),
           attempts ++ [(⟨k + 2, correctionExtract result.html (corr k),
             validate_component ac ar (correctionExtract result.html (corr k))⟩ :
               AttemptRec)],
           calls + 1) := by
      

        refine ⟨?_, ?_, ?_, ?_, ?_⟩
        · dsimp only
          rw [hlen2, hcalls, hlen]
        · intro i hi
          dsimp only at hi ⊢
          rw [hlen2] at hi
          by_cases hik : i < attempts.length
          · rw [getD_append_left _ _ _ _ hik]
            exact hnum i hik
          · have hieq : i = attempts.length := by omega
            subst hieq
            rw [getD_append_last]
            simp [hlen]
        · dsimp only
          rw [hlen2]
          have he : (k + 1) + 1 - 1 = attempts.length := by omega
          rw [he, getD_append_last]
        · intro i hi
          dsimp only at hi ⊢
          rw [hlen2] at hi
          by_cases hik : i + 1 < attempts.length
          · rw [getD_append_left _ _ _ _ (by omega)]
            exact hinv i hik
          · have hieq : i = k := by omega
            subst hieq
            rw [getD_append_left _ _ _ _ (by omega), hlastk]
            exact hv'
        · intro i hi
          dsimp only at hi ⊢
          rw [hlen2] at hi
          by_cases hik : i + 1 < attempts.length
          · rw [getD_append_left _ _ _ _ hik,
              getD_append_left _ _ _ _ (by omega)]
            exact hchain i hik
          · have hieq : i = k := by omega
            subst hieq
            have hk1 : i + 1 = attempts.length := by omega
            rw [hk1, getD_append_last,
              getD_append_left _ _ _ _ (by omega), hlastk]
            exact ⟨rfl, rfl⟩
      rw [hstep]
      have hres := ih (k + 1) _ _ _ _ hlen2 hpost2
      exact ⟨hres.1, by omega, by omega⟩

theorem gwc_eq (ac ar : List (List Char)) (g : Artifact) (corr : Nat → List Char) :
    generate_with_correction ac ar g corr =
      ({ final_code := (correctionLoop ac ar corr MAX_RETRIES 0 g
            (validate_component ac ar g) [⟨1, g, validate_component ac ar g⟩] 1).1,
         validation := (correctionLoop ac ar corr MAX_RETRIES 0 g
            (validate_component ac ar g) [⟨1, g, validate_component ac ar g⟩] 1).2.1,
         attempts := (correctionLoop ac ar corr MAX_RETRIES 0 g
            (validate_component ac ar g) [⟨1, g, validate_component ac ar g⟩] 1).2.2.1.length,
         success := (correctionLoop ac ar corr MAX_RETRIES 0 g
            (validate_component ac ar g) [⟨1, g, validate_component ac ar g⟩] 1).2.1.valid },
       (correctionLoop ac ar corr MAX_RETRIES 0 g
          (validate_component ac ar g) [⟨1, g, validate_component ac ar g⟩] 1).2.2.1,
       (correctionLoop ac ar corr MAX_RETRIES 0 g
          (validate_component ac ar g) [⟨1, g, validate_component ac ar g⟩] 1).2.2.2) := rfl

theorem initPost (ac ar : List (List Char)) (g : Artifact) (corr : Nat → List Char) :
    loopPost ac ar corr
      (g, validate_component ac ar g, [⟨1, g, validate_component ac ar g⟩], 1) := by
  refine ⟨rfl, ?_, rfl, ?_, ?_⟩
  · intro i hi
    dsimp only at hi
    have h0 : i = 0 := by simpa using hi
    subst h0
    rfl
  · intro i hi
    dsimp only at hi
    exact absurd hi (by simp)
  · intro i hi
    dsimp only at hi
    exact absurd hi (by simp)

theorem gwc_spec (ac ar : List (List Char)) (g : Artifact) (corr : Nat → List Char) :
    loopPost ac ar corr (correctionLoop ac ar corr MAX_RETRIES 0 g
        (validate_component ac ar g) [⟨1, g, validate_component ac ar g⟩] 1)
      ∧ 1 ≤ (correctionLoop ac ar corr MAX_RETRIES 0 g
          (validate_component ac ar g) [⟨1, g, validate_component ac ar g⟩] 1).2.2.1.length
      ∧ (correctionLoop ac ar corr MAX_RETRIES 0 g
          (validate_component ac ar g) [⟨1, g, validate_component ac ar g⟩] 1).2.2.1.length
        ≤ 1 + MAX_RETRIES := by
  have h := correctionLoop_spec ac ar corr MAX_RETRIES 0 g (validate_component ac ar g)
    [⟨1, g, validate_component ac ar g⟩] 1 rfl (initPost ac ar g corr)
  exact ⟨h.1, h.2.1, by have := h.2.2; omega⟩

/-- Claim C3: for every run of the orchestrator the returned attempt
count equals the length of the attempt log, lies between one and one
plus the retry bound, the collaborator call count equals the attempt
count, attempts are numbered contiguously from one, and every attempt
that was followed by a correction call was invalid. -/
theorem c3_orchestrator_invariants (ac ar : List (List Char)) (g : Artifact)
    (corr : Nat → List Char) :
    (generate_with_correction ac ar g corr).1.attempts
        = (generate_with_correction ac ar g corr).2.1.length
    ∧ 1 ≤ (generate_with_correction ac ar g corr).1.attempts
    ∧ (generate_with_correction ac ar g corr).1.attempts ≤ 1 + MAX_RETRIES
    ∧ (generate_with_correction ac ar g corr).2.2
        = (generate_with_correction ac ar g corr).1.attempts
    ∧ (∀ i, i < (generate_with_correction ac ar g corr).2.1.length →
        ((generate_with_correction ac ar g corr).2.1.getD i dummyAttempt).attempt
          = i + 1)
    ∧ (∀ i, i + 1 < (generate_with_correction ac ar g corr).2.1.length →
        ((generate_with_correction ac ar g corr).2.1.getD i
            dummyAttempt).validation.valid = false) := by
  obtain ⟨⟨hcalls, hnum, hlast, hinv, hchain⟩, hlo, hhi⟩ := gwc_spec ac ar g corr
  rw [gwc_eq]
  exact ⟨rfl, hlo, hhi, hcalls, hnum, hinv⟩

/-- Claim C4: the orchestrator returns exactly the artifact and
validation of the last recorded attempt, the success flag equals the
final validation flag, and the final error list is exactly the error
list of the last attempt. -/
theorem c4_final_attempt_returned (ac ar : List (List Char)) (g : Artifact)
    (corr : Nat → List Char) :
    (generate_with_correction ac ar g corr).1.final_code
        = ((generate_with_correction ac ar g corr).2.1.getD
            ((generate_with_correction ac ar g corr).2.1.length - 1)
            dummyAttempt).code
    ∧ (generate_with_correction ac ar g corr).1.validation
        = ((generate_with_correction ac ar g corr).2.1.getD
            ((generate_with_correction ac ar g corr).2.1.length - 1)
            dummyAttempt).validation
    ∧ (generate_with_correction ac ar g corr).1.success
        = (generate_with_correction ac ar g corr).1.validation.valid
    ∧ (generate_with_correction ac ar g corr).1.validation.errors
        = ((generate_with_correction ac ar g corr).2.1.getD
            ((generate_with_correction ac ar g corr).2.1.length - 1)
            dummyAttempt).validation.errors := by
  obtain ⟨⟨hcalls, hnum, hlast, hinv, hchain⟩, hlo, hhi⟩ := gwc_spec ac ar g corr
  rw [gwc_eq]
  dsimp only
  rw [hlast]
  exact ⟨rfl, rfl, rfl, rfl⟩

/-- Claim C2, counterexample: in a run whose second attempt receives the
raw response `<div>hi</div>`, the recorded artifact differs from the
result of the full section-4.1 extractor on that response — the
correction path has no markup-tag fallback, so the markup lands in the
primary source instead of the secondary markup. -/
theorem c2_counterexample :
    1 < (generate_with_correction [] [] ⟨[], [], []⟩
        (fun _ => "<div>hi</div>".data)).2.1.length
    ∧ ((generate_with_correction [] [] ⟨[], [], []⟩
          (fun _ => "<div>hi</div>".data)).2.1.getD 1 dummyAttempt).code
        ≠ generate_component_extract "<div>hi</div>".data := by
  refine ⟨by decide, by decide⟩

/-- Claim C2 (amended): every correction attempt records the artifact
produced by the reduced correction-path extraction applied to the new
raw response — fence cleaning, exact separator normalisation and split
reusing the previous attempt secondary markup when the separator is
absent, prose trimming and remnant stripping, without the noise
stripping, markup-tag fallback, inline-template, capability-import, or
template-reference steps of the section-4.1 extractor — and its
validation is the validator run on that artifact. -/
theorem c2_amended_correction_extraction (ac ar : List (List Char)) (g : Artifact)
    (corr : Nat → List Char) (i : Nat)
    (h : i + 1 < (generate_with_correction ac ar g corr).2.1.length) :
    ((generate_with_correction ac ar g corr).2.1.getD (i + 1) dummyAttempt).code
        = correctionExtract
            (((generate_with_correction ac ar g corr).2.1.getD i
              dummyAttempt).code.html) (corr i)
    ∧ ((generate_with_correction ac ar g corr).2.1.getD (i + 1)
          dummyAttempt).validation
        = validate_component ac ar
            (((generate_with_correction ac ar g corr).2.1.getD (i + 1)
              dummyAttempt).code) := by
  obtain ⟨⟨hcalls, hnum, hlast, hinv, hchain⟩, hlo, hhi⟩ := gwc_spec ac ar g corr
  rw [gwc_eq] at h ⊢
  exact hchain i h

/-- Witness for the amended claim C2 on a concrete invalid first attempt
followed by a correction call. -/
theorem c2_amended_witness :
    0 + 1 < (generate_with_correction [] [] ⟨[], [], []⟩
        (fun _ => "x".data)).2.1.length
    ∧ (((generate_with_correction [] [] ⟨[], [], []⟩
            (fun _ => "x".data)).2.1.getD (0 + 1) dummyAttempt).code
          = correctionExtract
              (((generate_with_correction [] [] ⟨[], [], []⟩
                (fun _ => "x".data)).2.1.getD 0 dummyAttempt).code.html)
              ((fun _ => "x".data) 0)
        ∧ ((generate_with_correction [] [] ⟨[], [], []⟩
              (fun _ => "x".data)).2.1.getD (0 + 1) dummyAttempt).validation
          = validate_component [] []
              (((generate_with_correction [] [] ⟨[], [], []⟩
                (fun _ => "x".data)).2.1.getD (0 + 1) dummyAttempt).code)) :=
  ⟨by decide,
    c2_amended_correction_extraction [] [] ⟨[], [], []⟩ (fun _ => "x".data) 0 (by decide)⟩

/-- Witness for claim C3 on a concrete run that is valid at once. -/
theorem c3_witness :
    1 ≤ (generate_with_correction [] []
        ⟨"@Component Inter export class".data, [], []⟩ (fun _ => [])).1.attempts
    ∧ ((generate_with_correction [] []
          ⟨"@Component Inter export class".data, [], []⟩
          (fun _ => [])).2.1.getD 0 dummyAttempt).attempt = 0 + 1 :=
  ⟨(c3_orchestrator_invariants [] [] ⟨"@Component Inter export class".data, [], []⟩
      (fun _ => [])).2.1,
    (c3_orchestrator_invariants [] [] ⟨"@Component Inter export class".data, [], []⟩
      (fun _ => [])).2.2.2.2.1 0 (by decide)⟩

/-- Witness for claim C7: a single disallowed detected radius yields the
error. -/
theorem c7_witness :
    (validate_component [] [] ⟨"rounded-sm".data, [], []⟩).errors.filter
      isRadiusMsg ≠ [] :=
  ((c7_radius_check).1 [] [] ⟨"rounded-sm".data, [], []⟩).mpr (by decide)

theorem replaceAllGo_yields_rep (pat rep : List Char) (hpat : pat ≠ []) :
    ∀ (f : Nat) (t : List Char), t.length ≤ f → containsB t pat = true →
      ∃ a b, replaceAllGo pat rep f t = a ++ (rep ++ b) := by
  intro f
  induction f with
  | zero =>
    intro t hf hc
    have ht : t = [] := by
      cases t with
      | nil => rfl
      | cons c ts => simp at hf
    subst ht
    simp [containsB, List.isEmpty_iff, hpat] at hc
  | succ f ih =>
    intro t hf hc
    cases t with
    | nil => simp [containsB, List.isEmpty_iff, hpat] at hc
    | cons c ts =>
      by_cases hp : prefB pat (c :: ts) = true
      · refine ⟨[], replaceAllGo pat rep f ((c :: ts).drop pat.length), ?_⟩
        simp [replaceAllGo, hp, List.isEmpty_iff, hpat]
      · have hc2 : containsB ts pat = true := by
          simp only [containsB, Bool.or_eq_true] at hc
          rcases hc with h | h
          · exact absurd h hp
          · exact h
        obtain ⟨a, b, hab⟩ := ih ts (by simpa using Nat.le_of_succ_le_succ hf) hc2
        refine ⟨c :: a, b, ?_⟩
        simp [replaceAllGo, hp, hab]

theorem componentInsert_id (ins : List Char) :
    ∀ ts : List Char, hasComponentOpener ts = false → componentInsert ins ts = ts := by
  intro ts
  induction ts with
  | nil => intro _; rfl
  | cons c rest ih =>
    intro h
    simp only [hasComponentOpener, Bool.or_eq_false_iff] at h
    obtain ⟨h1, h2⟩ := h
    simp only [componentInsert]
    cases hm : componentMatchLen (c :: rest) with
    | some n => rw [hm] at h1; simp at h1
    | none => rw [ih h2]

/-- Claim C8, counterexample: the raw input `ngModel` uses the two-way
binding token, and the extractor injects the FormsModule import, but the
extracted primary source holds no imports list at all — the list is only
created when a component-decorator opener is present — so it does not
contain exactly one listing of the capability. -/
theorem c8_counterexample :
    usesNgModelIn "ngModel".data = true
    ∧ containsB (generate_component_extract "ngModel".data).ts
        formsImportLine = true
    ∧ containsB (generate_component_extract "ngModel".data).ts
        "imports".data = false := by
  refine ⟨by decide, by decide, by decide⟩

set_option maxRecDepth 40000 in
/-- Claim C8 (amended): when the two-way-binding token appears, the
FormsModule import is injected exactly when the substring
`@angular/forms` is absent from the primary source (after the exact
CommonModule import line when that line occurs, else prepended, and
never twice); FormsModule is appended to the first imports list only
when one exists and its contents do not already hold `FormsModule` as a
substring; when no imports list exists one is created only if a
component-decorator opener is present, otherwise no listing is added.
On the concrete artifact with a CommonModule import, an imports list,
and the token, the result holds exactly one import statement and exactly
one listing. -/
theorem c8_amended_ngmodel_injection :
    (∀ ts : List Char, containsB ts "@angular/forms".data = false →
      containsB (importInject ts) formsImportLine = true)
    ∧ (∀ ts : List Char, containsB ts "@angular/forms".data = true →
      importInject ts = ts)
    ∧ (∀ ts : List Char, hasImportsArr ts = false →
      hasComponentOpener ts = false → importsRegister ts = ts)
    ∧ (usesNgModelIn "import \x7b CommonModule \x7d from \x27@angular/common\x27;\n@Component(\x7b\n  imports: [CommonModule]\n\x7d)\nexport class X \x7b ngModel \x7d".data = true
      ∧ countOcc formsImportLine (generate_component_extract
          "import \x7b CommonModule \x7d from \x27@angular/common\x27;\n@Component(\x7b\n  imports: [CommonModule]\n\x7d)\nexport class X \x7b ngModel \x7d".data).ts = 1
      ∧ countOcc "FormsModule".data (generate_component_extract
          "import \x7b CommonModule \x7d from \x27@angular/common\x27;\n@Component(\x7b\n  imports: [CommonModule]\n\x7d)\nexport class X \x7b ngModel \x7d".data).ts = 2
      ∧ countOcc "imports: [CommonModule, FormsModule]".data
          (generate_component_extract
          "import \x7b CommonModule \x7d from \x27@angular/common\x27;\n@Component(\x7b\n  imports: [CommonModule]\n\x7d)\nexport class X \x7b ngModel \x7d".data).ts = 1) := by
  refine ⟨?_, ?_, ?_, by decide, by decide, by decide, by decide⟩
  · intro ts h
    unfold importInject
    rw [h]
    simp only [Bool.false_eq_true, if_false]
    by_cases hcm : containsB ts commonModuleLine = true
    · rw [if_pos hcm]
      obtain ⟨a, b, hab⟩ := replaceAllGo_yields_rep commonModuleLine
        (commonModuleLine ++ '\n' :: formsImportLine) (by decide)
        ts.length ts (Nat.le_refl _) hcm
      unfold replaceAll
      rw [hab]
      rw [containsB_iff]
      exact ⟨a ++ commonModuleLine ++ ['\n'], b, by simp⟩
    · rw [if_neg hcm]
      rw [containsB_iff]
      exact ⟨[], '\n' :: ts, by simp⟩
  · intro ts h
    unfold importInject
    rw [h]
    simp
  · intro ts h1 h2
    unfold importsRegister
    rw [h1]
    simp only [Bool.false_eq_true, if_false]
    exact componentInsert_id _ ts h2

/-- Witness for the amended claim C8 at a concrete primary source with
no forms reference. -/
theorem c8_amended_witness :
    containsB "x".data "@angular/forms".data = false
    ∧ containsB (importInject "x".data) formsImportLine = true :=
  ⟨by decide, (c8_amended_ngmodel_injection).1 "x".data (by decide)⟩

/-- Claim C9: the extractor and the correction-path extractor are total
functions of the raw text — every stage is defined for every input, the
raw output is preserved verbatim — and when neither the separator nor a
fallback markup tag occurs the whole cleaned text becomes the primary
segment and the secondary segment is empty. -/
theorem c9_extractor_total (raw prevHtml : List Char) :
    (generate_component_extract raw).raw = raw
    ∧ (correctionExtract prevHtml raw).raw = raw
    ∧ (sepSplit (cleanFull raw) = none → tagFindFrom (cleanFull raw) = none →
        splitParts (cleanFull raw) = (cleanFull raw, [])) := by
  refine ⟨rfl, rfl, fun h1 h2 => ?_⟩
  simp [splitParts, h1, h2]

/-- Witness for claim C9 at a concrete input without separator or tag. -/
theorem c9_witness :
    (generate_component_extract "plain".data).raw = "plain".data
    ∧ (correctionExtract [] "plain".data).raw = "plain".data
    ∧ splitParts (cleanFull "plain".data) = (cleanFull "plain".data, []) :=
  ⟨(c9_extractor_total "plain".data []).1,
    (c9_extractor_total "plain".data []).2.1,
    (c9_extractor_total "plain".data []).2.2 (by decide) (by decide)⟩
